import Mathlib

/-!
# Auto-dismiss of flash alerts (`static/js/main.js`)

A shallow embedding of the script

```
document.addEventListener('DOMContentLoaded', function () {
    const alerts = document.querySelectorAll('.alert');
    alerts.forEach(function (alert) {
        setTimeout(function () {
            const bsAlert = bootstrap.Alert.getOrCreateInstance(alert);
            bsAlert.close();
        }, 4000);
    });
});
```

The host (document, clock, timer queue) is an explicit state; the UI toolkit
(`bootstrap.Alert`) is an external collaborator and is taken as a parameter:
what the global name `bootstrap` resolves to, and what the toolkit's functions
do to the toolkit state and to the document. Every call the script makes to a
toolkit function is recorded in a call log; an error raised by one of the
script's own expressions is kept apart from an error raised inside a toolkit
function.
-/

namespace AutoDismiss

/-- Identity of a DOM element (the object reference a closure captures). -/
abbrev ElementRef := Nat

/-- A DOM element: its identity and its class list. -/
structure Element where
  ref : ElementRef
  classList : List String
deriving DecidableEq, Repr

/-- The elements of the document, listed in document order. -/
abbrev Document := List Element

/-- The closures the script hands to `setTimeout`: the only one is
`function () { bootstrap.Alert.getOrCreateInstance(alert).close() }`,
which captures the element `alert`. -/
inductive Closure where
  | dismiss (alert : ElementRef)
deriving DecidableEq, Repr

/-- A pending timer: the callback, the delay passed to `setTimeout`, and the
clock value at which `setTimeout` was called. -/
structure Timer where
  callback : Closure
  delay : Nat
  armedAt : Nat
deriving DecidableEq, Repr

/-- The calls the script makes to the toolkit. `close element` is `.close()`
invoked on the controller that `getOrCreateInstance(element)` returned. -/
inductive Call where
  | getOrCreateInstance (element : ElementRef)
  | close (element : ElementRef)
deriving DecidableEq, Repr

/-- One entry of the call log: the clock value and the call. -/
structure LogEntry where
  time : Nat
  call : Call
deriving DecidableEq, Repr

/-- What the callee expression `bootstrap.Alert.getOrCreateInstance` evaluates
to when the callback runs. -/
inductive Callee where
  /-- The global name `bootstrap` is not bound: the callback raises a
  `ReferenceError`. -/
  | unbound
  /-- The name is bound, but `bootstrap` or `bootstrap.Alert` is `undefined` or
  `null`, or `getOrCreateInstance` is not a function: the callback raises a
  `TypeError`. -/
  | unavailable
  /-- The toolkit's function. -/
  | method
deriving DecidableEq, Repr

/-- An error escaping a callback: raised by one of the script's own expressions
(`ReferenceError`, `TypeError`), or raised inside a toolkit function. -/
inductive Thrown (ε : Type) where
  | referenceError
  | typeError
  | toolkit (err : ε)
deriving DecidableEq, Repr

/-- The external UI toolkit: `σ` is its own state (the controller registry),
`κ` the controller type, `ε` the errors its functions may raise. `callee` is
what `bootstrap.Alert.getOrCreateInstance` evaluates to in a given state. Each
function returns its outcome together with the toolkit state and the document
it leaves behind. The lookup returns `some` controller, or `none` for a value
on which `.close()` cannot be called (`undefined`, `null`, or an object whose
`close` is not a function). -/
structure Toolkit (σ κ ε : Type) where
  callee : σ → Callee
  getOrCreateInstance : σ → Document → ElementRef → Except ε (Option κ) × σ × Document
  close : σ → Document → κ → Except ε Unit × σ × Document

/-- The host state: clock (ms), document, pending timers, toolkit state, the
log of toolkit calls made by the script, and the errors that escaped a
callback and were reported by the host. -/
structure Host (σ ε : Type) where
  now : Nat
  document : Document
  timers : List Timer
  toolkit : σ
  log : List LogEntry
  uncaught : List (Thrown ε)

variable {σ κ ε : Type}

/-- A class selector `.cls` applied to the whole document: the matching
elements, in document order (a static list). -/
def querySelectorAll (document : Document) (cls : String) : List Element :=
  document.filter (fun e => decide (cls ∈ e.classList))

/-- The host arms a one-shot timer for `callback` with the given delay. -/
def setTimeout (h : Host σ ε) (callback : Closure) (delay : Nat) : Host σ ε :=
  { h with timers := h.timers ++ [{ callback := callback, delay := delay, armedAt := h.now }] }

/-- `NodeList.forEach`: the callback runs once per entry, in list order, each
run starting from the host state the previous one left. -/
def forEach (nodes : List Element) (callback : Host σ ε → Element → Host σ ε)
    (h : Host σ ε) : Host σ ε :=
  nodes.foldl callback h

/-- The body of the `DOMContentLoaded` listener. -/
def onReady (h : Host σ ε) : Host σ ε :=
  let alerts := querySelectorAll h.document "alert"
  forEach alerts (fun h alert => setTimeout h (Closure.dismiss alert.ref) 4000) h

/-- Running a timer callback. The result is the host state afterwards and the
error that escaped the callback, if any. The callee expression is evaluated
first and raises on its own when it does not yield the toolkit's function; the
lookup is then called; `.close()` on its result raises on its own when the
result has no such method, and is otherwise called. -/
def runClosure (tk : Toolkit σ κ ε) (h : Host σ ε) :
    Closure → Host σ ε × Option (Thrown ε)
  | Closure.dismiss alert =>
    match tk.callee h.toolkit with
    | Callee.unbound => (h, some Thrown.referenceError)
    | Callee.unavailable => (h, some Thrown.typeError)
    | Callee.method =>
      let h1 : Host σ ε :=
        { h with log := h.log ++ [{ time := h.now, call := Call.getOrCreateInstance alert }] }
      match tk.getOrCreateInstance h.toolkit h.document alert with
      | (Except.error err, s1, d1) =>
        ({ h1 with toolkit := s1, document := d1 }, some (Thrown.toolkit err))
      | (Except.ok none, s1, d1) =>
        ({ h1 with toolkit := s1, document := d1 }, some Thrown.typeError)
      | (Except.ok (some bsAlert), s1, d1) =>
        let h2 : Host σ ε :=
          { h1 with toolkit := s1, document := d1,
                    log := h1.log ++ [{ time := h.now, call := Call.close alert }] }
        match tk.close s1 d1 bsAlert with
        | (Except.error err, s2, d2) =>
          ({ h2 with toolkit := s2, document := d2 }, some (Thrown.toolkit err))
        | (Except.ok _, s2, d2) => ({ h2 with toolkit := s2, document := d2 }, none)

/-- The host fires the pending timer at position `i`, provided it exists and
its delay has elapsed: the timer leaves the queue, its callback runs, and an
error escaping the callback is reported without touching the other timers. -/
def fire (tk : Toolkit σ κ ε) (h : Host σ ε) (i : Nat) : Host σ ε :=
  match h.timers[i]? with
  | none => h
  | some t =>
    if t.armedAt + t.delay ≤ h.now then
      match runClosure tk { h with timers := h.timers.eraseIdx i } t.callback with
      | (h2, none) => h2
      | (h2, some err) => { h2 with uncaught := h2.uncaught ++ [err] }
    else h

/-- What can happen on the page: the host dispatches `DOMContentLoaded`, the
clock moves forward, the host fires a pending timer, or something other than
this script changes the document and the toolkit state. -/
inductive Step (σ : Type) where
  | ready
  | advance (ms : Nat)
  | fire (i : Nat)
  | environment (document : Document) (toolkit : σ)

/-- Whether a step is the dispatch of `DOMContentLoaded`. -/
def Step.isReady : Step σ → Bool
  | Step.ready => true
  | _ => false

/-- One step of the page. -/
def step (tk : Toolkit σ κ ε) (h : Host σ ε) : Step σ → Host σ ε
  | Step.ready => onReady h
  | Step.advance ms => { h with now := h.now + ms }
  | Step.fire i => fire tk h i
  | Step.environment d s => { h with document := d, toolkit := s }

/-- A finite execution. -/
def run (tk : Toolkit σ κ ε) (h : Host σ ε) (steps : List (Step σ)) : Host σ ε :=
  steps.foldl (step tk) h

/-- The page right after loading: nothing armed, nothing called, nothing reported. -/
def Host.loaded (now : Nat) (document : Document) (toolkit : σ) : Host σ ε :=
  { now := now, document := document, timers := [], toolkit := toolkit, log := [], uncaught := [] }

/-- The timers armed by one run of the listener body on `h`. -/
def armedBy (h : Host σ ε) : List Timer :=
  (onReady h).timers.drop h.timers.length

/-- The element a timer's callback captured. -/
def Timer.target (t : Timer) : ElementRef :=
  match t.callback with
  | Closure.dismiss alert => alert

/-- Number of pending timers whose callback captured `e`. -/
def pendingCount (timers : List Timer) (e : ElementRef) : Nat :=
  timers.countP (fun t => decide (t.target = e))

/-- Number of `close` invocations on the controller of `e` in a log. -/
def closeCount (log : List LogEntry) (e : ElementRef) : Nat :=
  log.countP (fun ev => decide (ev.call = Call.close e))

/-- Clock values of the `close` invocations on the controller of `e`, oldest first. -/
def closeTimes (log : List LogEntry) (e : ElementRef) : List Nat :=
  (log.filter (fun ev => decide (ev.call = Call.close e))).map LogEntry.time

/-- The element a call is about. -/
def Call.element : Call → ElementRef
  | Call.getOrCreateInstance e => e
  | Call.close e => e

/-- The log entries the callback for `e` appends when it runs at clock value
`now` with the toolkit in state `s` and the document `d`: nothing when the
callee is not the toolkit's function, else the lookup, and the close if the
lookup returned a controller. -/
def callsMade (tk : Toolkit σ κ ε) (s : σ) (d : Document) (now : Nat) (e : ElementRef) :
    List LogEntry :=
  match tk.callee s with
  | Callee.method =>
    match (tk.getOrCreateInstance s d e).1 with
    | Except.ok (some _) =>
      [{ time := now, call := Call.getOrCreateInstance e }, { time := now, call := Call.close e }]
    | _ => [{ time := now, call := Call.getOrCreateInstance e }]
  | _ => []

/-- The toolkit state and the document the callback for `e` leaves behind when
it runs with the toolkit in state `s` and the document `d`. -/
def toolkitAfter (tk : Toolkit σ κ ε) (s : σ) (d : Document) (e : ElementRef) : σ × Document :=
  match tk.callee s with
  | Callee.method =>
    match tk.getOrCreateInstance s d e with
    | (Except.ok (some bsAlert), s1, d1) => (tk.close s1 d1 bsAlert).2
    | (_, s1, d1) => (s1, d1)
  | _ => (s, d)

/-- The error the callback for `e` lets escape when it runs with the toolkit in
state `s` and the document `d`, if any. -/
def thrownBy (tk : Toolkit σ κ ε) (s : σ) (d : Document) (e : ElementRef) : Option (Thrown ε) :=
  match tk.callee s with
  | Callee.unbound => some Thrown.referenceError
  | Callee.unavailable => some Thrown.typeError
  | Callee.method =>
    match tk.getOrCreateInstance s d e with
    | (Except.error err, _, _) => some (Thrown.toolkit err)
    | (Except.ok none, _, _) => some Thrown.typeError
    | (Except.ok (some bsAlert), s1, d1) =>
      match (tk.close s1 d1 bsAlert).1 with
      | Except.error err => some (Thrown.toolkit err)
      | Except.ok _ => none

/-- A toolkit that is available and whose lookup always returns a controller
for `e`. -/
def LookupReturns (tk : Toolkit σ κ ε) (e : ElementRef) : Prop :=
  ∀ (s : σ) (d : Document), tk.callee s = Callee.method ∧
    ∃ c, (tk.getOrCreateInstance s d e).1 = Except.ok (some c)


/-- The scenario document: three alerts and one element without the marker. -/
def scenarioDocument : Document :=
  [ { ref := 1, classList := ["alert", "alert-success"] },
    { ref := 2, classList := ["navbar"] },
    { ref := 3, classList := ["alert"] },
    { ref := 4, classList := ["alert", "fade", "show"] } ]

/-- A toolkit with no state that always returns a controller; closing it
removes the element from the document. -/
def plainToolkit : Toolkit Unit ElementRef String :=
  { callee := fun _ => Callee.method
    getOrCreateInstance := fun s d e => (Except.ok (some e), s, d)
    close := fun s d c => (Except.ok (), s, d.filter (fun el => decide (el.ref ≠ c))) }

/-- A toolkit whose lookup raises for the element `bad` and works for the others. -/
def brokenToolkit (bad : ElementRef) : Toolkit Unit ElementRef String :=
  { callee := fun _ => Callee.method
    getOrCreateInstance := fun s d e =>
      if e = bad then (Except.error "no controller", s, d) else (Except.ok (some e), s, d)
    close := fun s d c => (Except.ok (), s, d.filter (fun el => decide (el.ref ≠ c))) }

/-- A page on which the toolkit's script was never loaded: the global name
`bootstrap` is not bound. -/
def missingToolkit : Toolkit Unit ElementRef String :=
  { callee := fun _ => Callee.unbound
    getOrCreateInstance := fun s d e => (Except.ok (some e), s, d)
    close := fun s d c => (Except.ok (), s, d.filter (fun el => decide (el.ref ≠ c))) }

/-- A toolkit whose lookup returns `null` for an element that is not in the
document, and a controller otherwise. -/
def detachedToolkit : Toolkit Unit ElementRef String :=
  { callee := fun _ => Callee.method
    getOrCreateInstance := fun s d e =>
      if e ∈ d.map Element.ref then (Except.ok (some e), s, d) else (Except.ok none, s, d)
    close := fun s d c => (Except.ok (), s, d.filter (fun el => decide (el.ref ≠ c))) }

/-- The scenario schedule: the clock reaches the due time, then the three
timers fire, the last-armed one first. -/
def scenarioSchedule : List (Step Unit) :=
  [Step.advance 4000, Step.fire 2, Step.fire 0, Step.fire 0]

/-- A schedule in which a new alert (element 9) is inserted into the document
after the scan, before the clock reaches the due time and the timers fire. -/
def lateAlertSchedule : List (Step Unit) :=
  [Step.environment (scenarioDocument ++ [{ ref := 9, classList := ["alert"] }]) (),
   Step.advance 5000, Step.fire 0, Step.fire 0, Step.fire 0]

/-- The page after the scan, once element 3 has been removed from the document
and the clock has reached the due time. -/
def removedState : Host Unit String :=
  run plainToolkit (onReady (Host.loaded 100 scenarioDocument ()))
    [Step.environment (scenarioDocument.filter (fun el => decide (el.ref ≠ 3))) (),
     Step.advance 4000]

/-! ## The listener body -/

theorem forEach_setTimeout (alerts : List Element) (h : Host σ ε) :
    forEach alerts (fun h alert => setTimeout h (Closure.dismiss alert.ref) 4000) h =
      { h with timers := h.timers ++ alerts.map (fun alert =>
          { callback := Closure.dismiss alert.ref, delay := 4000, armedAt := h.now }) } := by
  induction alerts generalizing h with
  | nil => simp [forEach]
  | cons a rest ih =>
    unfold forEach at ih ⊢
    rw [List.foldl_cons, ih]
    simp [setTimeout]

theorem onReady_eq (h : Host σ ε) :
    onReady h =
      { h with timers := h.timers ++ (querySelectorAll h.document "alert").map (fun alert =>
          { callback := Closure.dismiss alert.ref, delay := 4000, armedAt := h.now }) } := by
  unfold onReady
  exact forEach_setTimeout _ h

theorem armedBy_eq (h : Host σ ε) :
    armedBy h = (querySelectorAll h.document "alert").map
      (fun alert => { callback := Closure.dismiss alert.ref, delay := 4000, armedAt := h.now }) := by
  unfold armedBy
  rw [onReady_eq]
  simp

theorem armedBy_targets (h : Host σ ε) :
    (armedBy h).map Timer.target = (querySelectorAll h.document "alert").map Element.ref := by
  rw [armedBy_eq, List.map_map]
  rfl

/-! ## Timer callbacks and the firing of a timer -/

theorem runClosure_frame (tk : Toolkit σ κ ε) (h : Host σ ε) (e : ElementRef) :
    (runClosure tk h (Closure.dismiss e)).1.now = h.now ∧
    (runClosure tk h (Closure.dismiss e)).1.timers = h.timers ∧
    (runClosure tk h (Closure.dismiss e)).1.uncaught = h.uncaught ∧
    (runClosure tk h (Closure.dismiss e)).1.log =
      h.log ++ callsMade tk h.toolkit h.document h.now e ∧
    ((runClosure tk h (Closure.dismiss e)).1.toolkit,
      (runClosure tk h (Closure.dismiss e)).1.document) =
      toolkitAfter tk h.toolkit h.document e ∧
    (runClosure tk h (Closure.dismiss e)).2 = thrownBy tk h.toolkit h.document e := by
  unfold runClosure callsMade toolkitAfter thrownBy
  cases hc : tk.callee h.toolkit with
  | unbound => simp
  | unavailable => simp
  | method =>
    rcases hl : tk.getOrCreateInstance h.toolkit h.document e with ⟨r, s1, d1⟩
    cases r with
    | error err => simp [hl]
    | ok v =>
      cases v with
      | none => simp [hl]
      | some c =>
        rcases hcl : tk.close s1 d1 c with ⟨r2, s2, d2⟩
        cases r2 with
        | error err => simp [hl, hcl]
        | ok u => simp [hl, hcl]

theorem fire_skip_none (tk : Toolkit σ κ ε) (h : Host σ ε) (i : Nat)
    (hi : h.timers[i]? = none) : fire tk h i = h := by
  simp [fire, hi]

theorem fire_skip_early (tk : Toolkit σ κ ε) (h : Host σ ε) (i : Nat) (t : Timer)
    (hi : h.timers[i]? = some t) (hearly : ¬ t.armedAt + t.delay ≤ h.now) :
    fire tk h i = h := by
  simp [fire, hi, hearly]

theorem fire_due (tk : Toolkit σ κ ε) (h : Host σ ε) (i : Nat) (t : Timer)
    (hi : h.timers[i]? = some t) (hdue : t.armedAt + t.delay ≤ h.now) :
    (fire tk h i).now = h.now ∧
    (fire tk h i).timers = h.timers.eraseIdx i ∧
    (fire tk h i).log = h.log ++ callsMade tk h.toolkit h.document h.now t.target ∧
    ((fire tk h i).toolkit, (fire tk h i).document) =
      toolkitAfter tk h.toolkit h.document t.target ∧
    (fire tk h i).uncaught =
      h.uncaught ++ (thrownBy tk h.toolkit h.document t.target).toList := by
  obtain ⟨cb, d, a⟩ := t
  cases cb with
  | dismiss e =>
    have hf := runClosure_frame tk { h with timers := h.timers.eraseIdx i } e
    simp only [fire, hi]
    rw [if_pos hdue]
    rcases hr : runClosure tk { h with timers := h.timers.eraseIdx i } (Closure.dismiss e)
      with ⟨h2, o⟩
    rw [hr] at hf
    obtain ⟨h1, h3, h4, h5, h6, h7⟩ := hf
    simp only at h1 h3 h4 h5 h6 h7
    subst h7
    cases hth : thrownBy tk h.toolkit h.document e with
    | none => simp [Timer.target, h1, h3, h4, h5, h6, hth]
    | some x => simp [Timer.target, h1, h3, h4, h5, h6, hth]

/-- Every step other than the dispatch of `DOMContentLoaded` either leaves the
timers and the log alone, or fires one due timer. -/
theorem step_cases (tk : Toolkit σ κ ε) (h : Host σ ε) (st : Step σ)
    (hst : st.isReady = false) :
    ((step tk h st).timers = h.timers ∧ (step tk h st).log = h.log ∧
      (step tk h st).uncaught = h.uncaught ∧ h.now ≤ (step tk h st).now) ∨
    (∃ i t, h.timers[i]? = some t ∧ t.armedAt + t.delay ≤ h.now ∧
      (step tk h st).now = h.now ∧
      (step tk h st).timers = h.timers.eraseIdx i ∧
      (step tk h st).log = h.log ++ callsMade tk h.toolkit h.document h.now t.target ∧
      (step tk h st).uncaught =
        h.uncaught ++ (thrownBy tk h.toolkit h.document t.target).toList) := by
  cases st with
  | ready => simp [Step.isReady] at hst
  | advance ms => left; simp [step]
  | environment d s => left; simp [step]
  | fire i =>
    simp only [step]
    cases hi : h.timers[i]? with
    | none => left; rw [fire_skip_none tk h i hi]; simp
    | some t =>
      by_cases hdue : t.armedAt + t.delay ≤ h.now
      · right
        obtain ⟨h1, h3, h4, _, h6⟩ := fire_due tk h i t hi hdue
        exact ⟨i, t, hi, hdue, h1, h3, h4, h6⟩
      · left; rw [fire_skip_early tk h i t hi hdue]; simp

/-- Invariants of executions in which the listener does not run again. -/
theorem run_invariant (tk : Toolkit σ κ ε) (P : Host σ ε → Prop)
    (hstep : ∀ h st, Step.isReady st = false → P h → P (step tk h st))
    (steps : List (Step σ)) (h : Host σ ε)
    (hsteps : ∀ st ∈ steps, Step.isReady st = false) (hP : P h) :
    P (run tk h steps) := by
  induction steps generalizing h with
  | nil => simpa [run] using hP
  | cons st rest ih =>
    have h1 : P (step tk h st) := hstep h st (hsteps st (List.mem_cons_self _ _)) hP
    have h2 := ih (step tk h st) (fun st' hm => hsteps st' (List.mem_cons_of_mem _ hm)) h1
    simpa [run] using h2

theorem step_no_timers (tk : Toolkit σ κ ε) (h : Host σ ε) (st : Step σ)
    (hst : st.isReady = false) (ht : h.timers = []) :
    (step tk h st).timers = [] ∧ (step tk h st).log = h.log ∧
      (step tk h st).uncaught = h.uncaught := by
  cases st with
  | ready => simp [Step.isReady] at hst
  | advance ms => simp [step, ht]
  | environment d s => simp [step, ht]
  | fire i =>
    have hi : h.timers[i]? = none := by simp [ht]
    simp only [step]
    rw [fire_skip_none tk h i hi]
    simp [ht]

/-! ## Counting pending timers and close invocations -/

theorem countP_eraseIdx_add {α : Type} (p : α → Bool) (l : List α) (i : Nat) (t : α)
    (hi : l[i]? = some t) :
    (l.eraseIdx i).countP p + (if p t then 1 else 0) = l.countP p := by
  induction l generalizing i with
  | nil => simp at hi
  | cons a rest ih =>
    cases i with
    | zero =>
      simp at hi
      subst hi
      simp [List.countP_cons]
    | succ j =>
      simp at hi
      have := ih j hi
      simp only [List.eraseIdx_cons_succ, List.countP_cons]
      omega

theorem callsMade_cases (tk : Toolkit σ κ ε) (s : σ) (d : Document) (now : Nat)
    (r : ElementRef) :
    callsMade tk s d now r = [] ∨
    callsMade tk s d now r = [{ time := now, call := Call.getOrCreateInstance r }] ∨
    callsMade tk s d now r =
      [{ time := now, call := Call.getOrCreateInstance r }, { time := now, call := Call.close r }] := by
  unfold callsMade
  cases tk.callee s with
  | unbound => left; rfl
  | unavailable => left; rfl
  | method =>
    right
    cases (tk.getOrCreateInstance s d r).1 with
    | error err => left; rfl
    | ok v =>
      cases v with
      | none => left; rfl
      | some c => right; rfl

theorem callsMade_ok (tk : Toolkit σ κ ε) (s : σ) (d : Document) (now : Nat) (e : ElementRef)
    (hok : LookupReturns tk e) :
    callsMade tk s d now e =
      [{ time := now, call := Call.getOrCreateInstance e }, { time := now, call := Call.close e }] := by
  obtain ⟨hcallee, c, hc⟩ := hok s d
  unfold callsMade
  rw [hcallee]
  simp only
  rw [hc]

theorem mem_callsMade (tk : Toolkit σ κ ε) (s : σ) (d : Document) (now : Nat) (r : ElementRef)
    (ev : LogEntry) (hev : ev ∈ callsMade tk s d now r) :
    ev.time = now ∧ ev.call.element = r := by
  rcases callsMade_cases tk s d now r with h0 | h1 | h2
  · rw [h0] at hev; simp at hev
  · rw [h1] at hev
    simp at hev
    subst hev
    simp [Call.element]
  · rw [h2] at hev
    simp at hev
    rcases hev with rfl | rfl <;> simp [Call.element]

theorem closeCount_append (l₁ l₂ : List LogEntry) (e : ElementRef) :
    closeCount (l₁ ++ l₂) e = closeCount l₁ e + closeCount l₂ e := by
  simp [closeCount, List.countP_append]

theorem closeCount_callsMade_ne (tk : Toolkit σ κ ε) (s : σ) (d : Document) (now : Nat)
    (r e : ElementRef) (hne : r ≠ e) : closeCount (callsMade tk s d now r) e = 0 := by
  unfold closeCount
  rw [List.countP_eq_zero]
  intro ev hev
  have := (mem_callsMade tk s d now r ev hev).2
  intro hc
  simp at hc
  rw [hc] at this
  exact hne (by simpa [Call.element] using this.symm)

theorem closeCount_callsMade_le (tk : Toolkit σ κ ε) (s : σ) (d : Document) (now : Nat)
    (r e : ElementRef) : closeCount (callsMade tk s d now r) e ≤ 1 := by
  rcases callsMade_cases tk s d now r with h0 | h1 | h2
  · rw [h0]; simp [closeCount]
  · rw [h1]; simp [closeCount, List.countP_cons]
  · rw [h2]
    simp only [closeCount, List.countP_cons, List.countP_nil]
    simp
    split <;> omega

theorem closeCount_callsMade_ok (tk : Toolkit σ κ ε) (s : σ) (d : Document) (now : Nat)
    (e : ElementRef) (hok : LookupReturns tk e) :
    closeCount (callsMade tk s d now e) e = 1 := by
  rw [callsMade_ok tk s d now e hok]
  simp [closeCount, List.countP_cons]

theorem pendingCount_eraseIdx (timers : List Timer) (i : Nat) (t : Timer) (e : ElementRef)
    (hi : timers[i]? = some t) :
    pendingCount (timers.eraseIdx i) e + (if t.target = e then 1 else 0) =
      pendingCount timers e := by
  have := countP_eraseIdx_add (fun t => decide (t.target = e)) timers i t hi
  simpa [pendingCount] using this

/-- A step that is not the dispatch of `DOMContentLoaded` never increases the
number of close invocations made plus timers still pending for an element. -/
theorem step_count_le (tk : Toolkit σ κ ε) (e : ElementRef) (h : Host σ ε) (st : Step σ)
    (hst : st.isReady = false) :
    closeCount (step tk h st).log e + pendingCount (step tk h st).timers e ≤
      closeCount h.log e + pendingCount h.timers e := by
  rcases step_cases tk h st hst with ⟨h1, h2, _, _⟩ | ⟨i, t, hi, _, _, h3, h4, _⟩
  · rw [h1, h2]
  · rw [h3, h4, closeCount_append]
    have hp := pendingCount_eraseIdx h.timers i t e hi
    by_cases hte : t.target = e
    · have := closeCount_callsMade_le tk h.toolkit h.document h.now t.target e
      rw [if_pos hte] at hp
      omega
    · have := closeCount_callsMade_ne tk h.toolkit h.document h.now t.target e hte
      rw [if_neg hte] at hp
      omega

/-- With a toolkit that is available and whose lookup returns a controller for
the element, that number stays the same. -/
theorem step_count_eq (tk : Toolkit σ κ ε) (e : ElementRef) (hok : LookupReturns tk e)
    (h : Host σ ε) (st : Step σ) (hst : st.isReady = false) :
    closeCount (step tk h st).log e + pendingCount (step tk h st).timers e =
      closeCount h.log e + pendingCount h.timers e := by
  rcases step_cases tk h st hst with ⟨h1, h2, _, _⟩ | ⟨i, t, hi, _, _, h3, h4, _⟩
  · rw [h1, h2]
  · rw [h3, h4, closeCount_append]
    have hp := pendingCount_eraseIdx h.timers i t e hi
    by_cases hte : t.target = e
    · have := closeCount_callsMade_ok tk h.toolkit h.document h.now e hok
      rw [hte]
      rw [if_pos hte] at hp
      omega
    · have := closeCount_callsMade_ne tk h.toolkit h.document h.now t.target e hte
      rw [if_neg hte] at hp
      omega

/-- No toolkit call is made before the earliest due time of the pending timers. -/
theorem step_not_before (tk : Toolkit σ κ ε) (T : Nat) (h : Host σ ε) (st : Step σ)
    (hst : st.isReady = false)
    (hP : (∀ t ∈ h.timers, T ≤ t.armedAt + t.delay) ∧ (∀ ev ∈ h.log, T ≤ ev.time)) :
    (∀ t ∈ (step tk h st).timers, T ≤ t.armedAt + t.delay) ∧
      (∀ ev ∈ (step tk h st).log, T ≤ ev.time) := by
  rcases step_cases tk h st hst with ⟨h1, h2, _, _⟩ | ⟨i, t, hi, hdue, _, h3, h4, _⟩
  · rw [h1, h2]; exact hP
  · rw [h3, h4]
    refine ⟨fun t' ht' => hP.1 t' (List.mem_of_mem_eraseIdx ht'), ?_⟩
    intro ev hev
    rcases List.mem_append.mp hev with hold | hnew
    · exact hP.2 ev hold
    · have htime := (mem_callsMade tk h.toolkit h.document h.now t.target ev hnew).1
      have hmem : t ∈ h.timers := List.getElem?_mem hi
      have := hP.1 t hmem
      omega

theorem pendingCount_armed (alerts : List Element) (now : Nat) (e : ElementRef) :
    pendingCount (alerts.map (fun alert =>
      { callback := Closure.dismiss alert.ref, delay := 4000, armedAt := now })) e =
      (alerts.map Element.ref).count e := by
  induction alerts with
  | nil => simp [pendingCount]
  | cons a rest ih =>
    simp only [pendingCount] at ih
    simp only [pendingCount, List.map_cons, List.countP_cons, List.count_cons]
    rw [ih]
    by_cases hae : a.ref = e <;> simp [Timer.target, hae]

/-! ## Claims about one run of the listener body -/

/-- C1: when the document holds N >= 1 elements matching `.alert` at scan
time, one run of the listener body appends exactly N timers to the queue, the
i-th of them capturing the i-th matched element, and each armed with a delay
of exactly 4000 ms (at the clock value of the scan). -/
theorem onReady_arms_one_timer_per_alert (h : Host σ ε) (N : Nat)
    (hN : (querySelectorAll h.document "alert").length = N) (hpos : 1 ≤ N) :
    (onReady h).timers = h.timers ++ armedBy h ∧
    (onReady h).timers.length = h.timers.length + N ∧
    (armedBy h).length = N ∧
    (∀ t ∈ armedBy h, t.delay = 4000 ∧ t.armedAt = h.now) ∧
    List.Forall₂ (fun t alert => t.callback = Closure.dismiss alert.ref)
      (armedBy h) (querySelectorAll h.document "alert") := by
  have _ := hpos
  refine ⟨?_, ?_, ?_, ?_, ?_⟩
  · rw [armedBy_eq, onReady_eq]
  · rw [onReady_eq]; simp [hN]
  · rw [armedBy_eq]; simp [hN]
  · intro t ht
    rw [armedBy_eq] at ht
    obtain ⟨a, _, rfl⟩ := List.mem_map.mp ht
    exact ⟨rfl, rfl⟩
  · rw [armedBy_eq]
    rw [List.forall₂_map_left_iff]
    exact List.forall₂_same.mpr (fun _ _ => rfl)

theorem onReady_arms_one_timer_per_alert_witness :
    (querySelectorAll (Host.loaded 100 scenarioDocument () : Host Unit String).document
        "alert").length = 3 ∧
    (onReady (Host.loaded 100 scenarioDocument () : Host Unit String)).timers.length = 0 + 3 ∧
    (armedBy (Host.loaded 100 scenarioDocument () : Host Unit String)).length = 3 ∧
    (armedBy (Host.loaded 100 scenarioDocument () : Host Unit String)).map Timer.delay
      = [4000, 4000, 4000] :=
  have hN : (querySelectorAll (Host.loaded 100 scenarioDocument () : Host Unit String).document
      "alert").length = 3 := by
    simp [querySelectorAll, Host.loaded, scenarioDocument]
  have hmain := onReady_arms_one_timer_per_alert
    (Host.loaded 100 scenarioDocument () : Host Unit String) 3 hN (by decide)
  ⟨hN, hmain.2.1, hmain.2.2.1, by decide⟩

/-- C3: when no element of the document matches `.alert`, one run of the
listener body arms no timer and returns the host state unchanged (document,
timer queue, toolkit state, call log, reported errors); and when no timer was
pending before, no toolkit call is made and no error is reported in any later
execution in which the listener does not run again. -/
theorem onReady_without_alerts_is_noop (tk : Toolkit σ κ ε) (h : Host σ ε)
    (hnone : (querySelectorAll h.document "alert").length = 0) :
    onReady h = h ∧ armedBy h = [] ∧
    (h.timers = [] → ∀ steps : List (Step σ), (∀ st ∈ steps, Step.isReady st = false) →
      (run tk (onReady h) steps).timers = [] ∧
      (run tk (onReady h) steps).log = h.log ∧
      (run tk (onReady h) steps).uncaught = h.uncaught) := by
  have hnil : querySelectorAll h.document "alert" = [] := List.length_eq_zero.mp hnone
  have hid : onReady h = h := by rw [onReady_eq, hnil]; simp
  refine ⟨hid, ?_, ?_⟩
  · rw [armedBy_eq, hnil]; rfl
  · intro ht steps hsteps
    rw [hid]
    apply run_invariant tk
      (fun h' => h'.timers = [] ∧ h'.log = h.log ∧ h'.uncaught = h.uncaught) _ steps h hsteps
    · exact ⟨ht, rfl, rfl⟩
    · intro h' st hst hP
      obtain ⟨h1, h2, h3⟩ := step_no_timers tk h' st hst hP.1
      exact ⟨h1, h2.trans hP.2.1, h3.trans hP.2.2⟩

theorem onReady_without_alerts_is_noop_witness :
    (onReady (Host.loaded 0 [{ ref := 2, classList := ["navbar"] }] () : Host Unit String)).timers
      = [] :=
  have hnone : (querySelectorAll
      (Host.loaded 0 [{ ref := 2, classList := ["navbar"] }] () : Host Unit String).document
      "alert").length = 0 := by
    simp [querySelectorAll, Host.loaded]
  have hmain := onReady_without_alerts_is_noop plainToolkit
    (Host.loaded 0 [{ ref := 2, classList := ["navbar"] }] () : Host Unit String) hnone
  by rw [hmain.1]; rfl

/-- C8: in a document whose elements are pairwise distinct, the elements
captured by the timers that one run of the listener body arms, in arming
order, are exactly the elements matching `.alert` in document order: the list
is a subsequence of the document, has no repetition, and an element of the
document is captured if and only if it carries the class `alert`. -/
theorem armed_targets_in_document_order (h : Host σ ε)
    (hdistinct : (h.document.map Element.ref).Nodup) :
    (armedBy h).map Timer.target =
      (h.document.filter (fun el => decide ("alert" ∈ el.classList))).map Element.ref ∧
    List.Sublist ((armedBy h).map Timer.target) (h.document.map Element.ref) ∧
    ((armedBy h).map Timer.target).Nodup ∧
    (∀ el ∈ h.document, el.ref ∈ (armedBy h).map Timer.target ↔ "alert" ∈ el.classList) := by
  have htargets := armedBy_targets h
  have hsub : List.Sublist ((armedBy h).map Timer.target) (h.document.map Element.ref) := by
    rw [htargets]
    exact List.Sublist.map _ (List.filter_sublist _)
  refine ⟨htargets, hsub, hsub.nodup hdistinct, ?_⟩
  intro el hel
  rw [htargets]
  constructor
  · intro hm
    obtain ⟨el', hel', href⟩ := List.mem_map.mp hm
    have hmem := List.mem_filter.mp hel'
    have heq : el' = el :=
      List.inj_on_of_nodup_map hdistinct hmem.1 hel href
    rw [← heq]
    simpa using hmem.2
  · intro hcls
    exact List.mem_map.mpr ⟨el, List.mem_filter.mpr ⟨hel, by simpa using hcls⟩, rfl⟩

theorem armed_targets_in_document_order_witness :
    (armedBy (Host.loaded 100 scenarioDocument () : Host Unit String)).map Timer.target
      = [1, 3, 4] :=
  have hdistinct : ((Host.loaded 100 scenarioDocument () : Host Unit String).document.map
      Element.ref).Nodup := by
    simp [Host.loaded, scenarioDocument]
  have hmain := armed_targets_in_document_order
    (Host.loaded 100 scenarioDocument () : Host Unit String) hdistinct
  by rw [hmain.1]; simp [Host.loaded, scenarioDocument]

/-! ## Claims about executions after the listener has run -/

/-- Once every pending timer is due, firing the head of the queue once per
pending timer empties the queue. -/
theorem drain (tk : Toolkit σ κ ε) (n : Nat) (h : Host σ ε) (hlen : h.timers.length = n)
    (hdue : ∀ t ∈ h.timers, t.armedAt + t.delay ≤ h.now) :
    (run tk h (List.replicate n (Step.fire 0))).timers = [] := by
  induction n generalizing h with
  | zero => simpa [run] using List.length_eq_zero.mp hlen
  | succ m ih =>
    match hts : h.timers, hlen with
    | t :: rest, hlen' =>
      have hi : h.timers[0]? = some t := by rw [hts]; simp
      have hmem : t ∈ h.timers := by rw [hts]; exact List.mem_cons_self _ _
      obtain ⟨h1, h3, _, _, _⟩ := fire_due tk h 0 t hi (hdue t hmem)
      have hrest : (fire tk h 0).timers = rest := by rw [h3, hts]; rfl
      have := ih (fire tk h 0) (by rw [hrest]; simpa using hlen') (by
        intro t' ht'
        rw [h1]
        rw [hrest] at ht'
        exact hdue t' (by rw [hts]; exact List.mem_cons_of_mem _ ht'))
      simpa [run, List.replicate_succ, step] using this

/-- After the listener has run on a freshly loaded page, some execution fires
every timer it armed. -/
theorem drain_after_ready (tk : Toolkit σ κ ε) (now : Nat) (doc : Document) (s0 : σ) :
    ∃ sched : List (Step σ), (∀ st ∈ sched, Step.isReady st = false) ∧
      (run tk (onReady (Host.loaded now doc s0)) sched).timers = [] := by
  refine ⟨Step.advance 4000 ::
    List.replicate (querySelectorAll doc "alert").length (Step.fire 0), ?_, ?_⟩
  · intro st hst
    rcases List.mem_cons.mp hst with rfl | hrep
    · rfl
    · rw [List.eq_of_mem_replicate hrep]; rfl
  · have := drain tk (querySelectorAll doc "alert").length
      (step tk (onReady (Host.loaded now doc s0)) (Step.advance 4000))
      (by rw [onReady_eq]; simp [step, Host.loaded])
      (by
        rw [onReady_eq]
        intro t ht
        simp [step, Host.loaded] at ht
        obtain ⟨a, _, rfl⟩ := ht
        simp [step, Host.loaded])
    simpa [run] using this

theorem count_at_ready (now : Nat) (doc : Document) (s0 : σ) (e : ElementRef)
    (hdistinct : (doc.map Element.ref).Nodup)
    (he : e ∈ (querySelectorAll doc "alert").map Element.ref) :
    closeCount (onReady (Host.loaded now doc s0 : Host σ ε)).log e +
      pendingCount (onReady (Host.loaded now doc s0 : Host σ ε)).timers e = 1 := by
  have hsubl : List.Sublist ((querySelectorAll doc "alert").map Element.ref)
      (doc.map Element.ref) := List.Sublist.map _ (List.filter_sublist _)
  rw [onReady_eq]
  simp only [Host.loaded, List.nil_append]
  rw [pendingCount_armed, List.count_eq_one_of_mem (hsubl.nodup hdistinct) he]
  simp [closeCount]

theorem run_count_eq (tk : Toolkit σ κ ε) (e : ElementRef) (hok : LookupReturns tk e)
    (steps : List (Step σ)) (h : Host σ ε) (hsteps : ∀ st ∈ steps, Step.isReady st = false) :
    closeCount (run tk h steps).log e + pendingCount (run tk h steps).timers e =
      closeCount h.log e + pendingCount h.timers e :=
  run_invariant tk
    (fun h' => closeCount h'.log e + pendingCount h'.timers e =
      closeCount h.log e + pendingCount h.timers e)
    (fun h' st hst hP => (step_count_eq tk e hok h' st hst).trans hP) steps h hsteps rfl

theorem lookupReturns_plainToolkit (e : ElementRef) : LookupReturns plainToolkit e :=
  fun _ _ => ⟨rfl, e, rfl⟩

theorem lookupReturns_brokenToolkit (bad e : ElementRef) (hne : e ≠ bad) :
    LookupReturns (brokenToolkit bad) e :=
  fun _ _ => ⟨rfl, e, by simp [brokenToolkit, hne]⟩

/-- C2, as amended: after a single run of the listener body on a freshly loaded
page whose elements are pairwise distinct, in every execution in which the
listener does not run again, an element matched at scan time has close invoked
on its controller at most once, and no toolkit call happens before the scan
time plus 4000 ms. When the toolkit is available and its lookup returns a
controller for the element, the close invocations made plus the timers still
pending for it always number exactly one, so close has been invoked exactly
once as soon as its timer has fired; and some execution fires every timer. -/
theorem close_exactly_once_not_before_delay (tk : Toolkit σ κ ε) (now : Nat) (doc : Document)
    (s0 : σ) (e : ElementRef) (hdistinct : (doc.map Element.ref).Nodup)
    (he : e ∈ (querySelectorAll doc "alert").map Element.ref)
    (steps : List (Step σ)) (hsteps : ∀ st ∈ steps, Step.isReady st = false) :
    closeCount (run tk (onReady (Host.loaded now doc s0)) steps).log e ≤ 1 ∧
    (∀ ev ∈ (run tk (onReady (Host.loaded now doc s0)) steps).log, now + 4000 ≤ ev.time) ∧
    (LookupReturns tk e →
      closeCount (run tk (onReady (Host.loaded now doc s0)) steps).log e +
        pendingCount (run tk (onReady (Host.loaded now doc s0)) steps).timers e = 1) ∧
    (LookupReturns tk e →
      pendingCount (run tk (onReady (Host.loaded now doc s0)) steps).timers e = 0 →
      closeCount (run tk (onReady (Host.loaded now doc s0)) steps).log e = 1) ∧
    (∃ sched : List (Step σ), (∀ st ∈ sched, Step.isReady st = false) ∧
      (run tk (onReady (Host.loaded now doc s0)) sched).timers = []) := by
  have hstart := count_at_ready (ε := ε) now doc s0 e hdistinct he
  have hle : closeCount (run tk (onReady (Host.loaded now doc s0)) steps).log e +
      pendingCount (run tk (onReady (Host.loaded now doc s0)) steps).timers e ≤ 1 :=
    run_invariant tk (fun h => closeCount h.log e + pendingCount h.timers e ≤ 1)
      (fun h st hst hP => le_trans (step_count_le tk e h st hst) hP) steps _ hsteps
      (le_of_eq hstart)
  have heq : LookupReturns tk e →
      closeCount (run tk (onReady (Host.loaded now doc s0)) steps).log e +
        pendingCount (run tk (onReady (Host.loaded now doc s0)) steps).timers e = 1 :=
    fun hok => (run_count_eq tk e hok steps _ hsteps).trans hstart
  have htime := run_invariant tk
    (fun h => (∀ t ∈ h.timers, now + 4000 ≤ t.armedAt + t.delay) ∧
      (∀ ev ∈ h.log, now + 4000 ≤ ev.time))
    (fun h st hst hP => step_not_before tk (now + 4000) h st hst hP) steps
    (onReady (Host.loaded now doc s0)) hsteps (by
      rw [onReady_eq]
      constructor
      · intro t ht
        simp [Host.loaded] at ht
        obtain ⟨a, _, rfl⟩ := ht
        simp [Host.loaded]
      · intro ev hev
        simp [Host.loaded] at hev)
  refine ⟨by omega, htime.2, heq, ?_, drain_after_ready tk now doc s0⟩
  intro hok hzero
  have := heq hok
  omega

theorem close_exactly_once_not_before_delay_witness :
    pendingCount (run plainToolkit (onReady (Host.loaded 100 scenarioDocument ()))
      scenarioSchedule).timers 3 = 0 ∧
    closeCount (run plainToolkit (onReady (Host.loaded 100 scenarioDocument ()))
      scenarioSchedule).log 3 = 1 ∧
    closeTimes (run plainToolkit (onReady (Host.loaded 100 scenarioDocument ()))
      scenarioSchedule).log 3 = [4100] :=
  have hmain := close_exactly_once_not_before_delay plainToolkit 100 scenarioDocument () 3
    (by decide) (by decide) scenarioSchedule (by decide)
  have hzero : pendingCount (run plainToolkit (onReady (Host.loaded 100 scenarioDocument ()))
      scenarioSchedule).timers 3 = 0 := by decide
  ⟨hzero, hmain.2.2.2.1 (lookupReturns_plainToolkit 3) hzero, by decide⟩

/-- C2 as stated fails: with a toolkit whose lookup raises for element 1, in
the scenario document (pairwise distinct elements, element 1 matched at scan
time) the scenario schedule never runs the listener again and fires every
timer, yet close is invoked on element 1 zero times, not once. -/
theorem close_exactly_once_counterexample :
    (scenarioDocument.map Element.ref).Nodup ∧
    1 ∈ (querySelectorAll scenarioDocument "alert").map Element.ref ∧
    scenarioSchedule.all (fun st => !st.isReady) = true ∧
    (run (brokenToolkit 1) (onReady (Host.loaded 100 scenarioDocument ()))
      scenarioSchedule).timers = [] ∧
    closeCount (run (brokenToolkit 1) (onReady (Host.loaded 100 scenarioDocument ()))
      scenarioSchedule).log 1 = 0 ∧
    closeCount (run (brokenToolkit 1) (onReady (Host.loaded 100 scenarioDocument ()))
      scenarioSchedule).log 1 ≠ 1 := by
  decide

/-- Pending timers and logged calls stay within any set of elements that
contains the targets of the pending timers, as long as the listener does not
run again. -/
theorem step_targets (tk : Toolkit σ κ ε) (S : ElementRef → Prop) (h : Host σ ε) (st : Step σ)
    (hst : st.isReady = false)
    (hP : (∀ t ∈ h.timers, S t.target) ∧ (∀ ev ∈ h.log, S ev.call.element)) :
    (∀ t ∈ (step tk h st).timers, S t.target) ∧
      (∀ ev ∈ (step tk h st).log, S ev.call.element) := by
  rcases step_cases tk h st hst with ⟨h1, h2, _, _⟩ | ⟨i, t, hi, _, _, h3, h4, _⟩
  · rw [h1, h2]; exact hP
  · rw [h3, h4]
    refine ⟨fun t' ht' => hP.1 t' (List.mem_of_mem_eraseIdx ht'), ?_⟩
    intro ev hev
    rcases List.mem_append.mp hev with hold | hnew
    · exact hP.2 ev hold
    · rw [(mem_callsMade tk h.toolkit h.document h.now t.target ev hnew).2]
      exact hP.1 t (List.getElem?_mem hi)

/-- After the listener has run on a freshly loaded page, every pending timer
and every logged call is about an element matched at scan time. -/
theorem targets_after_ready (tk : Toolkit σ κ ε) (now : Nat) (doc : Document) (s0 : σ)
    (steps : List (Step σ)) (hsteps : ∀ st ∈ steps, Step.isReady st = false) :
    (∀ t ∈ (run tk (onReady (Host.loaded now doc s0)) steps).timers,
      t.target ∈ (querySelectorAll doc "alert").map Element.ref) ∧
    (∀ ev ∈ (run tk (onReady (Host.loaded now doc s0)) steps).log,
      ev.call.element ∈ (querySelectorAll doc "alert").map Element.ref) := by
  apply run_invariant tk
    (fun h => (∀ t ∈ h.timers, t.target ∈ (querySelectorAll doc "alert").map Element.ref) ∧
      (∀ ev ∈ h.log, ev.call.element ∈ (querySelectorAll doc "alert").map Element.ref))
    (fun h st hst hP => step_targets tk _ h st hst hP) steps _ hsteps
  rw [onReady_eq]
  constructor
  · intro t ht
    simp [Host.loaded] at ht
    obtain ⟨a, ha, rfl⟩ := ht
    exact List.mem_map.mpr ⟨a, ha, rfl⟩
  · intro ev hev
    simp [Host.loaded] at hev

theorem call_ne_of_element_ne (c : Call) (e : ElementRef) (hne : c.element ≠ e) :
    c ≠ Call.getOrCreateInstance e ∧ c ≠ Call.close e := by
  constructor <;> intro hc <;> exact hne (by rw [hc]; rfl)

/-- C4: after a single run of the listener body on a freshly loaded page whose
elements are pairwise distinct, an element of the document that does not carry
the class `alert` at scan time gets no timer, and in every execution in which
the listener does not run again no lookup and no close is ever logged for it.
The listener body itself changes nothing but the timer queue, and every step
taken by the script (listener or timer callback) preserves each observation of
the toolkit state and the document that the dismissal of a matched element
preserves. -/
theorem unmatched_element_never_touched (tk : Toolkit σ κ ε) (now : Nat) (doc : Document)
    (s0 : σ) (el : Element) (hdistinct : (doc.map Element.ref).Nodup) (hel : el ∈ doc)
    (hno : "alert" ∉ el.classList)
    (steps : List (Step σ)) (hsteps : ∀ st ∈ steps, Step.isReady st = false) :
    ((onReady (Host.loaded now doc s0 : Host σ ε)).document = doc ∧
      (onReady (Host.loaded now doc s0 : Host σ ε)).toolkit = s0 ∧
      (onReady (Host.loaded now doc s0 : Host σ ε)).log = [] ∧
      (onReady (Host.loaded now doc s0 : Host σ ε)).uncaught = [] ∧
      (onReady (Host.loaded now doc s0 : Host σ ε)).now = now) ∧
    (∀ t ∈ armedBy (Host.loaded now doc s0 : Host σ ε), t.target ≠ el.ref) ∧
    (∀ t ∈ (run tk (onReady (Host.loaded now doc s0)) steps).timers, t.target ≠ el.ref) ∧
    (∀ ev ∈ (run tk (onReady (Host.loaded now doc s0)) steps).log,
      ev.call ≠ Call.getOrCreateInstance el.ref ∧ ev.call ≠ Call.close el.ref) ∧
    (∀ (α : Type) (obs : σ → Document → α),
      (∀ s d r, r ∈ (querySelectorAll doc "alert").map Element.ref →
        obs (toolkitAfter tk s d r).1 (toolkitAfter tk s d r).2 = obs s d) →
      ∀ st : Step σ, (∀ d s, st ≠ Step.environment d s) →
        obs (step tk (run tk (onReady (Host.loaded now doc s0)) steps) st).toolkit
            (step tk (run tk (onReady (Host.loaded now doc s0)) steps) st).document =
          obs (run tk (onReady (Host.loaded now doc s0)) steps).toolkit
            (run tk (onReady (Host.loaded now doc s0)) steps).document) := by
  have hnotin : el.ref ∉ (querySelectorAll doc "alert").map Element.ref := by
    intro hm
    obtain ⟨el', hel', href⟩ := List.mem_map.mp hm
    have hmem := List.mem_filter.mp hel'
    have heq : el' = el := List.inj_on_of_nodup_map hdistinct hmem.1 hel href
    rw [heq] at hmem
    exact hno (by simpa using hmem.2)
  have hinv := targets_after_ready tk now doc s0 steps hsteps
  refine ⟨?_, ?_, ?_, ?_, ?_⟩
  · rw [onReady_eq]
    simp [Host.loaded]
  · intro t ht htarget
    have hmem : t.target ∈ (armedBy (Host.loaded now doc s0 : Host σ ε)).map Timer.target :=
      List.mem_map.mpr ⟨t, ht, rfl⟩
    rw [armedBy_targets, htarget] at hmem
    exact hnotin hmem
  · intro t ht htarget
    exact hnotin (htarget ▸ hinv.1 t ht)
  · intro ev hev
    apply call_ne_of_element_ne
    intro helem
    exact hnotin (helem ▸ hinv.2 ev hev)
  · intro α obs hobs st hst
    cases st with
    | ready => simp only [step]; rw [onReady_eq]
    | advance ms => simp [step]
    | environment d s => exact absurd rfl (hst d s)
    | fire i =>
      simp only [step]
      cases hi : (run tk (onReady (Host.loaded now doc s0)) steps).timers[i]? with
      | none => rw [fire_skip_none tk _ i hi]
      | some t =>
        by_cases hdue : t.armedAt + t.delay ≤ (run tk (onReady (Host.loaded now doc s0)) steps).now
        · obtain ⟨_, _, _, h5, _⟩ := fire_due tk _ i t hi hdue
          have h5a := congrArg Prod.fst h5
          have h5b := congrArg Prod.snd h5
          simp only at h5a h5b
          rw [h5a, h5b]
          exact hobs _ _ _ (hinv.1 t (List.getElem?_mem hi))
        · rw [fire_skip_early tk _ i t hi hdue]

theorem unmatched_element_never_touched_witness :
    (run plainToolkit (onReady (Host.loaded 100 scenarioDocument ()))
        scenarioSchedule).log.length = 6 ∧
    (run plainToolkit (onReady (Host.loaded 100 scenarioDocument ()))
        scenarioSchedule).log.all (fun ev =>
      decide (ev.call ≠ Call.getOrCreateInstance 2 ∧ ev.call ≠ Call.close 2)) = true :=
  have hmain := unmatched_element_never_touched plainToolkit 100 scenarioDocument ()
    { ref := 2, classList := ["navbar"] } (by decide) (by decide) (by decide)
    scenarioSchedule (by decide)
  ⟨by decide, List.all_eq_true.mpr (fun ev hev => decide_eq_true (hmain.2.2.2.1 ev hev))⟩

/-- C5: an element carrying the class `alert` that is not in the document when
the listener body scans it gets no timer from that run, and in every later
state of an execution in which the listener does not run again (whatever is
added to the document meanwhile) no timer is pending for it and no lookup or
close has been logged for it. -/
theorem element_added_after_scan_never_dismissed (tk : Toolkit σ κ ε) (now : Nat)
    (doc : Document) (s0 : σ) (el : Element) (hmark : "alert" ∈ el.classList)
    (habsent : el.ref ∉ doc.map Element.ref)
    (steps : List (Step σ)) (hsteps : ∀ st ∈ steps, Step.isReady st = false) :
    (∀ t ∈ (run tk (onReady (Host.loaded now doc s0)) steps).timers, t.target ≠ el.ref) ∧
    (∀ ev ∈ (run tk (onReady (Host.loaded now doc s0)) steps).log,
      ev.call ≠ Call.getOrCreateInstance el.ref ∧ ev.call ≠ Call.close el.ref) ∧
    pendingCount (run tk (onReady (Host.loaded now doc s0)) steps).timers el.ref = 0 ∧
    closeCount (run tk (onReady (Host.loaded now doc s0)) steps).log el.ref = 0 := by
  have _ := hmark
  have hsubl : List.Sublist ((querySelectorAll doc "alert").map Element.ref)
      (doc.map Element.ref) := List.Sublist.map _ (List.filter_sublist _)
  have hnotin : el.ref ∉ (querySelectorAll doc "alert").map Element.ref :=
    fun hm => habsent (hsubl.subset hm)
  have hinv := targets_after_ready tk now doc s0 steps hsteps
  have htimers : ∀ t ∈ (run tk (onReady (Host.loaded now doc s0)) steps).timers,
      t.target ≠ el.ref := fun t ht htarget => hnotin (htarget ▸ hinv.1 t ht)
  have hlog : ∀ ev ∈ (run tk (onReady (Host.loaded now doc s0)) steps).log,
      ev.call ≠ Call.getOrCreateInstance el.ref ∧ ev.call ≠ Call.close el.ref := by
    intro ev hev
    apply call_ne_of_element_ne
    intro helem
    exact hnotin (helem ▸ hinv.2 ev hev)
  refine ⟨htimers, hlog, ?_, ?_⟩
  · unfold pendingCount
    rw [List.countP_eq_zero]
    intro t ht
    simpa using htimers t ht
  · unfold closeCount
    rw [List.countP_eq_zero]
    intro ev hev
    simpa using (hlog ev hev).2

theorem element_added_after_scan_never_dismissed_witness :
    ({ ref := 9, classList := ["alert"] } : Element) ∈
      (run plainToolkit (onReady (Host.loaded 100 scenarioDocument ()))
        lateAlertSchedule).document ∧
    (run plainToolkit (onReady (Host.loaded 100 scenarioDocument ()))
        lateAlertSchedule).timers = [] ∧
    closeCount (run plainToolkit (onReady (Host.loaded 100 scenarioDocument ()))
        lateAlertSchedule).log 9 = 0 :=
  ⟨by decide, by decide,
    (element_added_after_scan_never_dismissed plainToolkit 100 scenarioDocument ()
      { ref := 9, classList := ["alert"] } (by decide) (by decide)
      lateAlertSchedule (by decide)).2.2.2⟩

/-! ## Failure isolation -/

theorem closeTimes_append (l₁ l₂ : List LogEntry) (e : ElementRef) :
    closeTimes (l₁ ++ l₂) e = closeTimes l₁ e ++ closeTimes l₂ e := by
  simp [closeTimes]

theorem closeTimes_callsMade_ne (tk : Toolkit σ κ ε) (s : σ) (d : Document) (now : Nat)
    (r e : ElementRef) (hne : r ≠ e) : closeTimes (callsMade tk s d now r) e = [] := by
  unfold closeTimes
  rw [List.map_eq_nil_iff, List.filter_eq_nil_iff]
  intro ev hev
  have := (mem_callsMade tk s d now r ev hev).2
  intro hc
  simp at hc
  rw [hc] at this
  exact hne (by simpa [Call.element] using this.symm)

theorem closeTimes_callsMade_ok (tk : Toolkit σ κ ε) (s : σ) (d : Document) (now : Nat)
    (e : ElementRef) (hok : LookupReturns tk e) :
    closeTimes (callsMade tk s d now e) e = [now] := by
  rw [callsMade_ok tk s d now e hok]
  simp [closeTimes, List.filter_cons]

/-- Two runs of the same schedule under two toolkits: the clock and the timer
queue evolve identically, and so do the close invocations on an element for
which both toolkits return a controller. The toolkit states and the documents
of the two runs may differ. -/
theorem step_lockstep (tk tk0 : Toolkit σ κ ε) (b : ElementRef) (hok : LookupReturns tk b)
    (hok0 : LookupReturns tk0 b) (h h0 : Host σ ε) (st : Step σ)
    (hst : st.isReady = false)
    (hR : h.now = h0.now ∧ h.timers = h0.timers ∧ closeTimes h.log b = closeTimes h0.log b) :
    (step tk h st).now = (step tk0 h0 st).now ∧
    (step tk h st).timers = (step tk0 h0 st).timers ∧
    closeTimes (step tk h st).log b = closeTimes (step tk0 h0 st).log b := by
  obtain ⟨hnow, htimers, hlog⟩ := hR
  cases st with
  | ready => simp [Step.isReady] at hst
  | advance ms => simp [step, hnow, htimers, hlog]
  | environment d s => simp [step, hnow, htimers, hlog]
  | fire i =>
    simp only [step]
    cases hi : h.timers[i]? with
    | none =>
      have hi0 : h0.timers[i]? = none := by rw [← htimers]; exact hi
      rw [fire_skip_none tk h i hi, fire_skip_none tk0 h0 i hi0]
      exact ⟨hnow, htimers, hlog⟩
    | some t =>
      have hi0 : h0.timers[i]? = some t := by rw [← htimers]; exact hi
      by_cases hdue : t.armedAt + t.delay ≤ h.now
      · have hdue0 : t.armedAt + t.delay ≤ h0.now := by rw [← hnow]; exact hdue
        obtain ⟨a1, a3, a4, _, _⟩ := fire_due tk h i t hi hdue
        obtain ⟨b1, b3, b4, _, _⟩ := fire_due tk0 h0 i t hi0 hdue0
        refine ⟨by rw [a1, b1, hnow], by rw [a3, b3, htimers], ?_⟩
        rw [a4, b4, closeTimes_append, closeTimes_append, hlog]
        by_cases htb : t.target = b
        · rw [htb, closeTimes_callsMade_ok tk _ _ _ b hok,
            closeTimes_callsMade_ok tk0 _ _ _ b hok0, hnow]
        · rw [closeTimes_callsMade_ne tk _ _ _ _ b htb,
            closeTimes_callsMade_ne tk0 _ _ _ _ b htb]
      · have hdue0 : ¬ t.armedAt + t.delay ≤ h0.now := by rw [← hnow]; exact hdue
        rw [fire_skip_early tk h i t hi hdue, fire_skip_early tk0 h0 i t hi0 hdue0]
        exact ⟨hnow, htimers, hlog⟩

theorem run_lockstep (tk tk0 : Toolkit σ κ ε) (b : ElementRef) (hok : LookupReturns tk b)
    (hok0 : LookupReturns tk0 b) (steps : List (Step σ)) (h h0 : Host σ ε)
    (hsteps : ∀ st ∈ steps, Step.isReady st = false)
    (hR : h.now = h0.now ∧ h.timers = h0.timers ∧ closeTimes h.log b = closeTimes h0.log b) :
    (run tk h steps).now = (run tk0 h0 steps).now ∧
    (run tk h steps).timers = (run tk0 h0 steps).timers ∧
    closeTimes (run tk h steps).log b = closeTimes (run tk0 h0 steps).log b := by
  induction steps generalizing h h0 with
  | nil => simpa [run] using hR
  | cons st rest ih =>
    have := ih (step tk h st) (step tk0 h0 st)
      (fun st' hm => hsteps st' (List.mem_cons_of_mem _ hm))
      (step_lockstep tk tk0 b hok hok0 h h0 st (hsteps st (List.mem_cons_self _ _)) hR)
    simpa [run] using this

/-- C6: after a single run of the listener body on a freshly loaded page whose
elements are pairwise distinct, take any toolkit `tk` (it may raise for other
elements, in lookup or in close) and any toolkit `tk0` (the run without the
failure), both returning a controller for the matched element `b`. Under the
same schedule the clock and the timer queue are identical in the two runs, the
close invocations on the controller of `b` happen at the same clock values,
and in the run with failures the close invocations made plus the timers still
pending for `b` number exactly one: close is invoked on `b` exactly once as
soon as its timer has fired. -/
theorem failing_callback_is_isolated (tk tk0 : Toolkit σ κ ε) (now : Nat) (doc : Document)
    (s0 : σ) (b : ElementRef) (hdistinct : (doc.map Element.ref).Nodup)
    (hb : b ∈ (querySelectorAll doc "alert").map Element.ref)
    (hok : LookupReturns tk b) (hok0 : LookupReturns tk0 b)
    (steps : List (Step σ)) (hsteps : ∀ st ∈ steps, Step.isReady st = false) :
    (run tk (onReady (Host.loaded now doc s0)) steps).now =
      (run tk0 (onReady (Host.loaded now doc s0)) steps).now ∧
    (run tk (onReady (Host.loaded now doc s0)) steps).timers =
      (run tk0 (onReady (Host.loaded now doc s0)) steps).timers ∧
    closeTimes (run tk (onReady (Host.loaded now doc s0)) steps).log b =
      closeTimes (run tk0 (onReady (Host.loaded now doc s0)) steps).log b ∧
    closeCount (run tk (onReady (Host.loaded now doc s0)) steps).log b +
      pendingCount (run tk (onReady (Host.loaded now doc s0)) steps).timers b = 1 ∧
    (pendingCount (run tk (onReady (Host.loaded now doc s0)) steps).timers b = 0 →
      closeCount (run tk (onReady (Host.loaded now doc s0)) steps).log b = 1) := by
  have hlock := run_lockstep tk tk0 b hok hok0 steps
    (onReady (Host.loaded now doc s0)) (onReady (Host.loaded now doc s0)) hsteps
    ⟨rfl, rfl, rfl⟩
  have hstart := count_at_ready (ε := ε) now doc s0 b hdistinct hb
  have hcount := (run_count_eq tk b hok steps _ hsteps).trans hstart
  refine ⟨hlock.1, hlock.2.1, hlock.2.2, hcount, ?_⟩
  intro hzero
  omega

theorem failing_callback_is_isolated_witness :
    (run (brokenToolkit 1) (onReady (Host.loaded 100 scenarioDocument ()))
      scenarioSchedule).uncaught = [Thrown.toolkit "no controller"] ∧
    closeCount (run (brokenToolkit 1) (onReady (Host.loaded 100 scenarioDocument ()))
      scenarioSchedule).log 1 = 0 ∧
    closeCount (run (brokenToolkit 1) (onReady (Host.loaded 100 scenarioDocument ()))
      scenarioSchedule).log 3 = 1 ∧
    closeTimes (run (brokenToolkit 1) (onReady (Host.loaded 100 scenarioDocument ()))
      scenarioSchedule).log 3 =
      closeTimes (run plainToolkit (onReady (Host.loaded 100 scenarioDocument ()))
        scenarioSchedule).log 3 :=
  have hmain := failing_callback_is_isolated (brokenToolkit 1) plainToolkit 100
    scenarioDocument () 3 (by decide) (by decide)
    (lookupReturns_brokenToolkit 1 3 (by decide)) (lookupReturns_plainToolkit 3)
    scenarioSchedule (by decide)
  ⟨by decide, by decide, hmain.2.2.2.2 (by decide), hmain.2.2.1⟩

/-! ## Errors at fire time -/

/-- C7, as amended: when a due timer fires, whether or not the captured
element is still in the document, it leaves the queue and the callback makes
no toolkit call other than the lookup on the captured element, followed by the
close on it when the lookup returned a controller. When
`bootstrap.Alert.getOrCreateInstance` is the toolkit's function and the lookup
does not return a value without a callable `close`, the host reports at most
one error and it is the one raised inside the toolkit's `getOrCreateInstance`
or `close`; nothing is reported when both return normally. Otherwise the
callback raises an error of its own: a `ReferenceError` (no toolkit call made)
when `bootstrap` is not bound, a `TypeError` (no toolkit call made) when the
callee cannot be called, and a `TypeError` after the lookup when `.close()`
cannot be called on its result. -/
theorem callback_errors_come_from_toolkit (tk : Toolkit σ κ ε) (h : Host σ ε) (i : Nat)
    (t : Timer) (hi : h.timers[i]? = some t) (hdue : t.armedAt + t.delay ≤ h.now) :
    (fire tk h i).timers = h.timers.eraseIdx i ∧
    (fire tk h i).now = h.now ∧
    (∃ calls, (fire tk h i).log = h.log ++ calls ∧
      (calls = [] ∨
       calls = [{ time := h.now, call := Call.getOrCreateInstance t.target }] ∨
       calls = [{ time := h.now, call := Call.getOrCreateInstance t.target },
                { time := h.now, call := Call.close t.target }])) ∧
    (tk.callee h.toolkit = Callee.method →
      (tk.getOrCreateInstance h.toolkit h.document t.target).1 ≠ Except.ok none →
      ((fire tk h i).uncaught = h.uncaught ∧
        ∃ c, (tk.getOrCreateInstance h.toolkit h.document t.target).1 = Except.ok (some c) ∧
          (tk.close (tk.getOrCreateInstance h.toolkit h.document t.target).2.1
            (tk.getOrCreateInstance h.toolkit h.document t.target).2.2 c).1 = Except.ok ()) ∨
      ∃ err, (fire tk h i).uncaught = h.uncaught ++ [Thrown.toolkit err] ∧
        ((tk.getOrCreateInstance h.toolkit h.document t.target).1 = Except.error err ∨
          ∃ c, (tk.getOrCreateInstance h.toolkit h.document t.target).1 = Except.ok (some c) ∧
            (tk.close (tk.getOrCreateInstance h.toolkit h.document t.target).2.1
              (tk.getOrCreateInstance h.toolkit h.document t.target).2.2 c).1 =
                Except.error err)) ∧
    (tk.callee h.toolkit = Callee.unbound →
      (fire tk h i).uncaught = h.uncaught ++ [Thrown.referenceError] ∧
      (fire tk h i).log = h.log) ∧
    (tk.callee h.toolkit = Callee.unavailable →
      (fire tk h i).uncaught = h.uncaught ++ [Thrown.typeError] ∧
      (fire tk h i).log = h.log) ∧
    (tk.callee h.toolkit = Callee.method →
      (tk.getOrCreateInstance h.toolkit h.document t.target).1 = Except.ok none →
      (fire tk h i).uncaught = h.uncaught ++ [Thrown.typeError] ∧
      (fire tk h i).log =
        h.log ++ [{ time := h.now, call := Call.getOrCreateInstance t.target }]) := by
  obtain ⟨hnow, htimers, hlog, _, hunc⟩ := fire_due tk h i t hi hdue
  refine ⟨htimers, hnow, ⟨_, hlog, callsMade_cases tk _ _ _ _⟩, ?_, ?_, ?_, ?_⟩
  · intro hcallee hctrl
    rw [hunc]
    unfold thrownBy
    rw [hcallee]
    simp only
    rcases hl : tk.getOrCreateInstance h.toolkit h.document t.target with ⟨r, s1, d1⟩
    rw [hl] at hctrl
    cases r with
    | error err => right; exact ⟨err, by simp, Or.inl rfl⟩
    | ok v =>
      cases v with
      | none => exact absurd rfl hctrl
      | some c =>
        simp only
        cases hcl : (tk.close s1 d1 c).1 with
        | error err => right; exact ⟨err, by simp, Or.inr ⟨c, rfl, hcl⟩⟩
        | ok u => left; exact ⟨by simp, c, rfl, hcl⟩
  · intro hcallee
    rw [hunc, hlog]
    unfold thrownBy callsMade
    rw [hcallee]
    simp
  · intro hcallee
    rw [hunc, hlog]
    unfold thrownBy callsMade
    rw [hcallee]
    simp
  · intro hcallee hnone
    rw [hunc, hlog]
    unfold thrownBy callsMade
    rw [hcallee]
    simp only
    rcases hl : tk.getOrCreateInstance h.toolkit h.document t.target with ⟨r, s1, d1⟩
    rw [hl] at hnone
    simp only at hnone
    subst hnone
    simp

theorem callback_errors_come_from_toolkit_witness :
    removedState.document.map Element.ref = [1, 2, 4] ∧
    (fire plainToolkit removedState 1).timers = removedState.timers.eraseIdx 1 ∧
    (fire plainToolkit removedState 1).uncaught = [] ∧
    (fire (brokenToolkit 3) removedState 1).uncaught = [Thrown.toolkit "no controller"] :=
  have hmain := callback_errors_come_from_toolkit plainToolkit removedState 1
    { callback := Closure.dismiss 3, delay := 4000, armedAt := 100 }
    (by decide) (by decide)
  ⟨by decide, hmain.1, by decide, by decide⟩

/-- C7 as stated fails: element 3 was matched at scan time and removed from the
document before its timer (position 1, due) fires. On a page where `bootstrap`
is not bound the firing reports a `ReferenceError` with no toolkit call made;
with a toolkit whose lookup returns `null` for a detached element it reports a
`TypeError` after the lookup returned normally and before any close. Neither
error was raised inside `getOrCreateInstance` or `close`. -/
theorem callback_errors_counterexample :
    removedState.document.map Element.ref = [1, 2, 4] ∧
    removedState.timers[1]? =
      some { callback := Closure.dismiss 3, delay := 4000, armedAt := 100 } ∧
    removedState.now = 4100 ∧
    removedState.log = [] ∧
    (fire missingToolkit removedState 1).uncaught = [Thrown.referenceError] ∧
    (fire missingToolkit removedState 1).log = [] ∧
    (detachedToolkit.getOrCreateInstance () removedState.document 3).1 = Except.ok none ∧
    (fire detachedToolkit removedState 1).uncaught = [Thrown.typeError] ∧
    (fire detachedToolkit removedState 1).log =
      [{ time := 4100, call := Call.getOrCreateInstance 3 }] :=
  ⟨by decide, by decide, by decide, by decide, by decide, by decide, by rfl, by decide,
    by decide⟩

/-! ## Running the listener more than once -/

theorem pendingCount_append (l₁ l₂ : List Timer) (e : ElementRef) :
    pendingCount (l₁ ++ l₂) e = pendingCount l₁ e + pendingCount l₂ e := by
  simp [pendingCount, List.countP_append]

/-- The effect of `k` consecutive runs of the listener body. -/
theorem iterate_onReady (h : Host σ ε) (k : Nat) :
    (onReady^[k] h).now = h.now ∧
    (onReady^[k] h).document = h.document ∧
    (onReady^[k] h).log = h.log ∧
    (onReady^[k] h).timers.length =
      h.timers.length + k * (querySelectorAll h.document "alert").length ∧
    (∀ e, pendingCount (onReady^[k] h).timers e =
      pendingCount h.timers e + k * ((querySelectorAll h.document "alert").map Element.ref).count e) ∧
    (∀ t ∈ (onReady^[k] h).timers, t ∈ h.timers ∨ (t.delay = 4000 ∧ t.armedAt = h.now)) := by
  induction k with
  | zero =>
    simp only [Function.iterate_zero, id_eq, Nat.zero_mul, Nat.add_zero, true_and]
    exact ⟨fun _ => trivial, fun t ht => Or.inl ht⟩
  | succ n ih =>
    obtain ⟨h1, h2, h3, h4, h5, h6⟩ := ih
    rw [Function.iterate_succ_apply', onReady_eq]
    simp only [h1, h2, h3]
    refine ⟨trivial, trivial, trivial, ?_, ?_, ?_⟩
    · rw [List.length_append, h4, List.length_map]
      ring
    · intro e
      rw [pendingCount_append, h5 e, pendingCount_armed]
      ring
    · intro t ht
      rcases List.mem_append.mp ht with hold | hnew
      · exact h6 t hold
      · obtain ⟨a, _, rfl⟩ := List.mem_map.mp hnew
        exact Or.inr ⟨rfl, rfl⟩

/-- After `k` runs of the listener on a freshly loaded page, some execution
fires every timer that was armed. -/
theorem drain_after_iterate (tk : Toolkit σ κ ε) (now : Nat) (doc : Document) (s0 : σ)
    (k : Nat) :
    ∃ sched : List (Step σ), (∀ st ∈ sched, Step.isReady st = false) ∧
      (run tk (onReady^[k] (Host.loaded now doc s0)) sched).timers = [] := by
  obtain ⟨i1, _, _, i4, _, i6⟩ := iterate_onReady (Host.loaded now doc s0 : Host σ ε) k
  refine ⟨Step.advance 4000 ::
    List.replicate (k * (querySelectorAll doc "alert").length) (Step.fire 0), ?_, ?_⟩
  · intro st hst
    rcases List.mem_cons.mp hst with rfl | hrep
    · rfl
    · rw [List.eq_of_mem_replicate hrep]; rfl
  · have hdrained := drain tk (k * (querySelectorAll doc "alert").length)
      (step tk (onReady^[k] (Host.loaded now doc s0)) (Step.advance 4000))
      (by simpa [step, Host.loaded] using i4)
      (by
        intro t ht
        simp only [step] at ht
        rcases i6 t ht with hold | ⟨hd, ha⟩
        · simp [Host.loaded] at hold
        · simp only [step, hd, ha, i1]
          simp [Host.loaded])
    simpa [run] using hdrained

/-- C9, as amended: the listener body has no once-only guard. On a freshly
loaded page, running it `k >= 1` times arms `k * N` timers, where `N` is the
number of elements matching `.alert`, and some execution fires them all. When
the elements of the document are pairwise distinct and the toolkit is
available and its lookup returns a controller for a matched element, the close
invocations made plus the timers still pending for that element always number
`k` in every execution in which the listener does not run again, so once its
timers have fired close has been invoked on it `k` times, which is one only
when `k = 1`. -/
theorem onReady_has_no_once_guard (tk : Toolkit σ κ ε) (now : Nat) (doc : Document) (s0 : σ)
    (k : Nat) (hk : 1 ≤ k) :
    (onReady^[k] (Host.loaded now doc s0 : Host σ ε)).timers.length =
      k * (querySelectorAll doc "alert").length ∧
    (∃ sched : List (Step σ), (∀ st ∈ sched, Step.isReady st = false) ∧
      (run tk (onReady^[k] (Host.loaded now doc s0)) sched).timers = []) ∧
    (∀ e : ElementRef, (doc.map Element.ref).Nodup →
      e ∈ (querySelectorAll doc "alert").map Element.ref → LookupReturns tk e →
      ∀ steps : List (Step σ), (∀ st ∈ steps, Step.isReady st = false) →
        closeCount (run tk (onReady^[k] (Host.loaded now doc s0)) steps).log e +
          pendingCount (run tk (onReady^[k] (Host.loaded now doc s0)) steps).timers e = k ∧
        (pendingCount (run tk (onReady^[k] (Host.loaded now doc s0)) steps).timers e = 0 →
          closeCount (run tk (onReady^[k] (Host.loaded now doc s0)) steps).log e = k ∧
          (closeCount (run tk (onReady^[k] (Host.loaded now doc s0)) steps).log e = 1 ↔
            k = 1))) := by
  have _ := hk
  obtain ⟨_, _, i3, i4, i5, _⟩ := iterate_onReady (Host.loaded now doc s0 : Host σ ε) k
  refine ⟨by simpa [Host.loaded] using i4, drain_after_iterate tk now doc s0 k, ?_⟩
  intro e hdistinct he hok steps hsteps
  have hsubl : List.Sublist ((querySelectorAll doc "alert").map Element.ref)
      (doc.map Element.ref) := List.Sublist.map _ (List.filter_sublist _)
  have hstart : closeCount (onReady^[k] (Host.loaded now doc s0 : Host σ ε)).log e +
      pendingCount (onReady^[k] (Host.loaded now doc s0 : Host σ ε)).timers e = k := by
    rw [i3, i5 e]
    simp only [Host.loaded]
    rw [List.count_eq_one_of_mem (hsubl.nodup hdistinct) he]
    simp [closeCount, pendingCount]
  have hcount := (run_count_eq tk e hok steps _ hsteps).trans hstart
  refine ⟨hcount, ?_⟩
  intro hzero
  constructor
  · omega
  · constructor <;> intro h1 <;> omega

theorem onReady_has_no_once_guard_witness :
    (onReady^[2] (Host.loaded 100 scenarioDocument () : Host Unit String)).timers.length
      = 2 * 3 ∧
    closeCount (run plainToolkit (onReady^[2] (Host.loaded 100 scenarioDocument ()))
      (Step.advance 4000 :: List.replicate 6 (Step.fire 0))).log 3 = 2 :=
  have hzero : pendingCount (run plainToolkit
      (onReady^[2] (Host.loaded 100 scenarioDocument ()))
      (Step.advance 4000 :: List.replicate 6 (Step.fire 0))).timers 3 = 0 := by decide
  have hmain := onReady_has_no_once_guard plainToolkit 100 scenarioDocument () 2 (by decide)
  ⟨by decide, ((hmain.2.2 3 (by decide) (by decide) (lookupReturns_plainToolkit 3)
    (Step.advance 4000 :: List.replicate 6 (Step.fire 0)) (by decide)).2 hzero).1⟩

/-- C9 as stated fails: with a toolkit whose lookup raises for element 1, two
runs of the listener on the scenario document arm six timers, the schedule
fires them all without running the listener again, and close is invoked on
the matched element 1 zero times, not twice. -/
theorem onReady_no_once_guard_counterexample :
    1 ∈ (querySelectorAll scenarioDocument "alert").map Element.ref ∧
    (onReady^[2] (Host.loaded 100 scenarioDocument () : Host Unit String)).timers.length = 6 ∧
    (run (brokenToolkit 1) (onReady^[2] (Host.loaded 100 scenarioDocument ()))
      (Step.advance 4000 :: List.replicate 6 (Step.fire 0))).timers = [] ∧
    closeCount (run (brokenToolkit 1) (onReady^[2] (Host.loaded 100 scenarioDocument ()))
      (Step.advance 4000 :: List.replicate 6 (Step.fire 0))).log 1 = 0 ∧
    closeCount (run (brokenToolkit 1) (onReady^[2] (Host.loaded 100 scenarioDocument ()))
      (Step.advance 4000 :: List.replicate 6 (Step.fire 0))).log 1 ≠ 2 := by
  decide

end AutoDismiss
